import Mathlib

/-!
Shallow embedding of the resume-parsing pipeline of
`app/models/ai/` (text_extractor.py, skill_extractor.py,
experience_parser.py, education_parser.py, quality_assessor.py,
resume_parser.py).

Conventions of the embedding:
* Python `str` is modelled as Lean `String` / `List Char` restricted to
  ASCII; the character classes `\w`, `\s`, `\d` are modelled by their
  ASCII meaning (they coincide with Python's on ASCII text).
* Python `float` is modelled by exact rationals `ℚ`; every comparison
  the claims depend on is far from any binary-rounding boundary.
* `datetime.datetime` is a `(year, month, day)` record; `datetime.now()`
  is an explicit parameter `now`.
* External libraries (spaCy, the BERT pipeline, `dateutil`) are passed
  in as oracle parameters; the source only consumes their results.
* Code that can raise is modelled with `Except String`.
-/

/-- The ASCII space character (written by code point throughout). -/
def spaceChar : Char := Char.ofNat 32

/-- ASCII model of Python's `\s` character class. -/
def isWsCh (c : Char) : Bool :=
  c = spaceChar || c = Char.ofNat 9 || c = Char.ofNat 10 ||
  c = Char.ofNat 13 || c = Char.ofNat 11 || c = Char.ofNat 12

/-- The ASCII newline character. -/
def nlChar : Char := Char.ofNat 10

/-- ASCII decimal digit test (`\d`). -/
def isDigitCh (c : Char) : Bool := '0' ≤ c && c ≤ '9'

/-- ASCII alphabetic test. -/
def isAlphaCh (c : Char) : Bool :=
  ('A' ≤ c && c ≤ 'Z') || ('a' ≤ c && c ≤ 'z')

/-- ASCII model of Python's `\w` character class. -/
def isWordCh (c : Char) : Bool := isAlphaCh c || isDigitCh c || c = '_'

/-- ASCII lower-casing of one character (Python `str.lower` on ASCII). -/
def lowerCh (c : Char) : Char :=
  if 'A' ≤ c && c ≤ 'Z' then Char.ofNat (c.toNat + 32) else c

/-- Lower-case a character list. -/
def lowerList (l : List Char) : List Char := l.map lowerCh

/-- Does `pat` occur as a contiguous sublist of `l`?  Models Python's
`pat in s` substring test. -/
def containsSub (l pat : List Char) : Bool :=
  match l with
  | [] => pat.isEmpty
  | _ :: rest => (pat.isPrefixOf l) || containsSub rest pat

/-- Case-insensitive substring test (`pat` given already lower-case). -/
def containsSubCI (l pat : List Char) : Bool :=
  containsSub (lowerList l) pat

/-- The punctuation characters kept by `TextExtractor._clean_text`'s
allow-list regex `[^\w\s\-\.\,\;\:\!\?\(\)\[\]\{\}\@\#\$\%\&\*\+\=\/\|\\]`. -/
def allowedPunct : List Char :=
  ['-', '.', ',', ';', ':', '!', '?', '(', ')', '[', ']',
   Char.ofNat 123, Char.ofNat 125, '@', '#', '$', '%', '&', '*', '+',
   '=', '/', '|', Char.ofNat 92]

/-- A character surviving the allow-list filter of `_clean_text`. -/
def isAllowedCh (c : Char) : Bool :=
  isWordCh c || isWsCh c || allowedPunct.contains c

/-- `re.sub(r'\s+', ' ', text)`: every maximal whitespace run becomes a
single space (emitted at the end of the run). -/
def collapseWs : List Char → List Char
  | [] => []
  | [c] => if isWsCh c then [spaceChar] else [c]
  | c :: d :: rest =>
    if isWsCh c then
      if isWsCh d then collapseWs (d :: rest)
      else spaceChar :: collapseWs (d :: rest)
    else c :: collapseWs (d :: rest)

/-- Index of the last newline inside the maximal whitespace prefix of
`l`, if any: this is where the greedy `\n\s*\n` match must put its
closing `\n`. -/
def wsRunLastNl (l : List Char) : Option Nat :=
  let p := l.takeWhile isWsCh
  match p.reverse.findIdx? (fun c => c = nlChar) with
  | none => none
  | some j => some (p.length - 1 - j)

/-- `re.sub(r'\n\s*\n', '\n\n', text)`: a newline followed (through
whitespace) by another newline is rewritten to exactly two newlines;
scanning resumes after the replaced match. -/
def normBlankLines : List Char → List Char
  | [] => []
  | c :: rest =>
    if c = nlChar then
      match wsRunLastNl rest with
      | some j => nlChar :: nlChar :: normBlankLines (rest.drop (j + 1))
      | none => c :: normBlankLines rest
    else c :: normBlankLines rest
termination_by l => l.length
decreasing_by
  · simp only [List.length_cons]
    have : (rest.drop (j + 1)).length ≤ rest.length := by
      simp [List.length_drop]
    omega
  · simp
  · simp

/-- Python `str.strip()`: drop whitespace from both ends. -/
def stripList (l : List Char) : List Char :=
  ((l.dropWhile isWsCh).reverse.dropWhile isWsCh).reverse

/-- `TextExtractor._clean_text`: empty-guard, collapse whitespace,
filter to the allow-list, normalise blank lines, strip. -/
def _clean_text (t : String) : String :=
  if t = "" then ""
  else
    String.mk (stripList (normBlankLines
      ((collapseWs t.data).filter isAllowedCh)))

/-! ## Narrow two-state section re-scanners
(`ExperienceParser._identify_experience_sections`,
`EducationParser._identify_education_sections`). -/

/-- Strip a Python string. -/
def stripStr (s : String) : String := String.mk (stripList s.data)

/-- Lower-case a Python string (`str.lower`, ASCII). -/
def pyLowerStr (s : String) : String := String.mk (lowerList s.data)

/-- `re.search(lit, line, re.IGNORECASE)` for a pattern that is a plain
literal (given lower-case): case-insensitive substring search. -/
def reSearchLit (lit : String) (line : String) : Bool :=
  containsSubCI line.data lit.data

/-- Helper scan: does `w1 ++ \s+ ++ w2` match starting at some position
of `l` (already lower-cased)?  `w2` starts with a non-whitespace
character in every pattern below, so the greedy `\s+` needs no
backtracking. -/
def twoWordScan (w1 w2 : List Char) : List Char → Bool
  | [] => false
  | l@(_ :: rest) =>
    (w1.isPrefixOf l &&
      (let r := l.drop w1.length
       !(r.takeWhile isWsCh).isEmpty && w2.isPrefixOf (r.dropWhile isWsCh))) ||
    twoWordScan w1 w2 rest

/-- `re.search(w1 ++ r'\s+' ++ w2, line, re.IGNORECASE)`. -/
def reSearchTwoWords (w1 w2 : String) (line : String) : Bool :=
  twoWordScan w1.data w2.data (lowerList line.data)

/-- The experience-header test of
`_identify_experience_sections` (any of the six patterns matches). -/
def isExperienceHeaderLine (line : String) : Bool :=
  reSearchTwoWords "work" "experience" line ||
  reSearchTwoWords "employment" "history" line ||
  reSearchTwoWords "professional" "experience" line ||
  reSearchTwoWords "career" "history" line ||
  reSearchTwoWords "job" "history" line ||
  reSearchLit "experience" line

/-- `ExperienceParser._is_major_section_header`. -/
def isExpBoundaryLine (line : String) : Bool :=
  reSearchLit "education" line || reSearchLit "skills" line ||
  reSearchLit "projects" line || reSearchLit "certifications" line ||
  reSearchLit "languages" line || reSearchLit "interests" line ||
  reSearchLit "achievements" line

/-- The education-header test of `_identify_education_sections`. -/
def isEduHeaderLine (line : String) : Bool :=
  reSearchLit "education" line || reSearchLit "academic" line ||
  reSearchLit "qualifications" line || reSearchLit "degrees" line

/-- `EducationParser._is_major_section_header`. -/
def isEduBoundaryLine (line : String) : Bool :=
  reSearchLit "experience" line || reSearchLit "skills" line ||
  reSearchLit "projects" line || reSearchLit "work" line

/-- The two-state line scan shared by the experience and education
re-scanners: on a header-matching line flush the current buffer and
start a new one seeded with the (stripped) header line itself; inside a
target section a boundary line flushes and leaves; other in-section
lines are appended; the final buffer is flushed. -/
def scanSecs (isH isB : String → Bool) :
    List String → List String → Bool → List (List String)
  | [], cur, _ => if cur = [] then [] else [cur]
  | ln :: rest, cur, inS =>
    let l := stripStr ln
    if isH l then
      (if cur = [] then [] else [cur]) ++ scanSecs isH isB rest [l] true
    else if inS then
      if isB l then
        (if cur = [] then [] else [cur]) ++ scanSecs isH isB rest [] false
      else scanSecs isH isB rest (cur ++ [l]) inS
    else scanSecs isH isB rest cur inS

/-- `ExperienceParser._identify_experience_sections`. -/
def _identify_experience_sections (text : String) : List String :=
  (scanSecs isExperienceHeaderLine isExpBoundaryLine
      (text.splitOn "\n") [] false).map (String.intercalate "\n")

/-- `EducationParser._identify_education_sections`. -/
def _identify_education_sections (text : String) : List String :=
  (scanSecs isEduHeaderLine isEduBoundaryLine
      (text.splitOn "\n") [] false).map (String.intercalate "\n")

/-! ## Skill deduplication (`SkillExtractor._deduplicate_skills`). -/

/-- One raw skill mention record as built by the three extraction
methods of `SkillExtractor`. -/
structure SkillInfo where
  skill_name : String
  category : String
  confidence : ℚ
  extraction_method : String
  context : String
deriving DecidableEq, Repr

/-- One step of the dedup fold: Python-dict insertion keyed by the
lower-cased name.  On a duplicate the stored confidence is first raised
to the max, and only then the (now never satisfiable) `>` test decides
whether to take the new mention's method/context. -/
def dedupInsert (m : List (String × SkillInfo)) (sk : SkillInfo) :
    List (String × SkillInfo) :=
  let key := pyLowerStr sk.skill_name
  if (m.lookup key).isSome then
    m.map (fun kv =>
      if kv.1 = key then
        let e1 := { kv.2 with confidence := max kv.2.confidence sk.confidence }
        let e2 :=
          if sk.confidence > e1.confidence then
            { e1 with extraction_method := sk.extraction_method,
                      context := sk.context }
          else e1
        (kv.1, e2)
      else kv)
  else m ++ [(key, sk)]

/-- `SkillExtractor._deduplicate_skills`: fold mentions into an
insertion-ordered map and return its values. -/
def _deduplicate_skills (skills : List SkillInfo) : List SkillInfo :=
  (skills.foldl dedupInsert []).map Prod.snd

/-! ## Education dates and GPA (`EducationParser`). -/

/-- A Python `datetime.datetime` (the pipeline only ever constructs and
compares year/month/day). -/
structure PyDateTime where
  year : Nat
  month : Nat
  day : Nat
deriving DecidableEq, Repr

/-- Value of a non-empty digit string (Python `int` on the strings this
code feeds it, which are always `"19"` or `"20"`). -/
def digitsToNat (l : List Char) : Nat :=
  l.foldl (fun n c => n * 10 + (c.toNat - 48)) 0

/-- `re.findall(r'\b(19|20)\d{2}\b', text)`: scan left to right for a
word-boundary, the literal alternation `19|20`, two more digits and a
closing word boundary; Python returns the *captured group*, i.e. just
the matched `"19"` or `"20"` prefix.  `prevWord` tracks whether the
preceding character is a word character. -/
def yearScanAux : Bool → List Char → List String
  | _, [] => []
  | _, [_] => []
  | _, [_, _] => []
  | _, [_, _, _] => []
  | prevWord, c1 :: c2 :: c3 :: c4 :: rest =>
    if !prevWord &&
        ((c1 = '1' && c2 = '9') || (c1 = '2' && c2 = '0')) &&
        isDigitCh c3 && isDigitCh c4 &&
        (match rest with
         | [] => true
         | r :: _ => !isWordCh r) then
      String.mk [c1, c2] :: yearScanAux true rest
    else
      yearScanAux (isWordCh c1) (c2 :: c3 :: c4 :: rest)

/-- `re.findall(r'\b(19|20)\d{2}\b', text)` over a string. -/
def pyFindallYears (t : String) : List String := yearScanAux false t.data

/-- `EducationParser._extract_education_dates`: the first two findall
*groups* (not the full 4-digit years!) become start/end dates. -/
def _extract_education_dates (text : String) :
    Option PyDateTime × Option PyDateTime :=
  match pyFindallYears text with
  | y0 :: y1 :: _ =>
    (some ⟨digitsToNat y0.data, 1, 1⟩, some ⟨digitsToNat y1.data, 12, 31⟩)
  | [y0] => (some ⟨digitsToNat y0.data, 1, 1⟩, none)
  | [] => (none, none)

/-- Rational value of the two digit groups of a `\d+\.\d+` match
(Python `float`, exact here because the groups are finite decimals). -/
def ratOfDigits (d1 d2 : List Char) : ℚ :=
  (digitsToNat d1 : ℚ) + (digitsToNat d2 : ℚ) / ((10 : ℚ) ^ d2.length)

/-- Try to match `GPA[:\s]*(\d+\.\d+)` (case-insensitively) at the head
of `l`; return the group value and the matched length. -/
def gpaMatchAt (l : List Char) : Option (ℚ × Nat) :=
  match l with
  | g :: p :: a :: rest =>
    if lowerCh g = 'g' && lowerCh p = 'p' && lowerCh a = 'a' then
      let isSep := fun c => c = ':' || isWsCh c
      let sep := rest.takeWhile isSep
      let r2 := rest.dropWhile isSep
      let d1 := r2.takeWhile isDigitCh
      let r3 := r2.dropWhile isDigitCh
      if d1 = [] then none
      else
        match r3 with
        | dot :: r4 =>
          if dot = '.' then
            let d2 := r4.takeWhile isDigitCh
            if d2 = [] then none
            else some (ratOfDigits d1 d2,
                       3 + sep.length + d1.length + 1 + d2.length)
          else none
        | [] => none
    else none
  | _ => none

/-- All (non-overlapping, left-to-right) values matched by
`GPA[:\s]*(\d+\.\d+)`; `re.search` returns the head of this list. -/
def gpaScan : List Char → List ℚ
  | [] => []
  | c :: rest =>
    match gpaMatchAt (c :: rest) with
    | some (v, n) => v :: gpaScan (rest.drop (n - 1))
    | none => gpaScan rest
termination_by l => l.length
decreasing_by
  · simp only [List.length_cons]
    have : (rest.drop (n - 1)).length ≤ rest.length := by
      simp [List.length_drop]
    omega
  · simp

/-- `EducationParser._extract_gpa`: first regex match, accepted only in
[0.0, 4.0]; anything else (including an out-of-range first match) is
`None`. -/
def _extract_gpa (text : String) : Option ℚ :=
  match (gpaScan text.data).head? with
  | some v => if 0 ≤ v ∧ v ≤ 4 then some v else none
  | none => none

/-! ## Date extraction (`ExperienceParser._extract_dates`).

A small continuation-passing matcher family models the five date
regexes with Python's leftmost, greedy-with-backtracking semantics.
A matcher takes the previous character (for `\b`) and the remaining
input, and returns the number of characters a full match consumes. -/

/-- Matcher type: previous character, remaining input, consumed count. -/
def MRE : Type := Option Char → List Char → Option Nat

/-- End of pattern: match of length 0. -/
def mDone : MRE := fun _ _ => some 0

/-- Consume one character of a class. -/
def mClass (p : Char → Bool) (k : MRE) : MRE := fun _ s =>
  match s with
  | [] => none
  | c :: rest => if p c then (k (some c) rest).map (· + 1) else none

/-- Consume a literal (optionally case-insensitive). -/
def mLit (cl : List Char) (ci : Bool) (k : MRE) : MRE :=
  match cl with
  | [] => k
  | c :: cs =>
    mClass (fun x => if ci then lowerCh x = lowerCh c else x = c) (mLit cs ci k)

/-- Candidate repetition counts from `top` down to `lo` (greedy order). -/
def listDown (top lo : Nat) : List Nat :=
  (List.range (top + 1 - lo)).map (fun j => top - j)

/-- Previous-character after consuming `i` characters of `s`. -/
def prevAfter (prev : Option Char) (s : List Char) (i : Nat) : Option Char :=
  if i = 0 then prev else s.get? (i - 1)

/-- Greedy bounded repetition `p{lo,hi}` with backtracking into the
continuation. -/
def mRepRange (p : Char → Bool) (lo hi : Nat) (k : MRE) : MRE :=
  fun prev s =>
    let run := (s.takeWhile p).length
    (listDown (min hi run) lo).findSome? (fun i =>
      (k (prevAfter prev s i) (s.drop i)).map (· + i))

/-- Greedy `p+` with backtracking. -/
def mPlus (p : Char → Bool) (k : MRE) : MRE :=
  fun prev s => mRepRange p 1 s.length k prev s

/-- Greedy `p*` with backtracking. -/
def mStar (p : Char → Bool) (k : MRE) : MRE :=
  fun prev s => mRepRange p 0 s.length k prev s

/-- Word boundary `\b` (zero-width). -/
def mBoundary (k : MRE) : MRE := fun prev s =>
  let pw := match prev with | some c => isWordCh c | none => false
  let nw := match s with | c :: _ => isWordCh c | [] => false
  if pw ≠ nw then k prev s else none

/-- Ordered alternation. -/
def mAlt (fs : List (MRE → MRE)) (k : MRE) : MRE :=
  fun prev s => fs.findSome? (fun f => f k prev s)

/-- `(\d{1,2})/(\d{1,2})/(\d{2,4})`. -/
def patP1 : MRE :=
  mRepRange isDigitCh 1 2 (mLit ['/'] false (mRepRange isDigitCh 1 2
    (mLit ['/'] false (mRepRange isDigitCh 2 4 mDone))))

/-- `(\d{1,2})-(\d{1,2})-(\d{2,4})`. -/
def patP2 : MRE :=
  mRepRange isDigitCh 1 2 (mLit ['-'] false (mRepRange isDigitCh 1 2
    (mLit ['-'] false (mRepRange isDigitCh 2 4 mDone))))

/-- `(\w+)\s+(\d{4})`. -/
def patP3 : MRE :=
  mPlus isWordCh (mPlus isWsCh (mRepRange isDigitCh 4 4 mDone))

/-- `(\d{4})\s*-\s*(\d{4}|\bPresent\b|\bCurrent\b)` (IGNORECASE). -/
def patP4 : MRE :=
  mRepRange isDigitCh 4 4 (mStar isWsCh (mLit ['-'] false (mStar isWsCh
    (mAlt
      [fun k => mRepRange isDigitCh 4 4 k,
       fun k => mBoundary (mLit "present".data true (mBoundary k)),
       fun k => mBoundary (mLit "current".data true (mBoundary k))]
      mDone))))

/-- `(\w+)\s+(\d{4})\s*-\s*(\w+)\s+(\d{4})`. -/
def patP5 : MRE :=
  mPlus isWordCh (mPlus isWsCh (mRepRange isDigitCh 4 4
    (mStar isWsCh (mLit ['-'] false (mStar isWsCh
      (mPlus isWordCh (mPlus isWsCh (mRepRange isDigitCh 4 4 mDone))))))))

/-- `re.finditer`: leftmost non-overlapping matches; a zero-width match
advances the scan by one character. -/
def finditerAux (pat : MRE) : Option Char → List Char → List (List Char)
  | prev, [] =>
    match pat prev [] with
    | some n => if n = 0 then [] else [[]]
    | none => []
  | prev, c :: rest =>
    match pat prev (c :: rest) with
    | some n =>
      if n = 0 then finditerAux pat (some c) rest
      else ((c :: rest).take n) ::
        finditerAux pat ((c :: rest).get? (n - 1)) (rest.drop (n - 1))
    | none => finditerAux pat (some c) rest
termination_by _ l => l.length
decreasing_by
  · simp
  · simp only [List.length_cons]
    have : (rest.drop (n - 1)).length ≤ rest.length := by
      simp [List.length_drop]
    omega

/-- All matches of a pattern in a string. -/
def reFinditer (pat : MRE) (t : String) : List String :=
  (finditerAux pat none t.data).map String.mk

/-- Underscore-aware digit-run check used by Python `int(str)`. -/
def duAux : List Char → Bool
  | [] => true
  | c :: rest =>
    if c = '_' then
      match rest with
      | d :: r2 => isDigitCh d && duAux r2
      | [] => false
    else isDigitCh c && duAux rest

/-- Digit run (with optional single underscores between digits). -/
def digitsUnderscore : List Char → Bool
  | [] => false
  | c :: rest => isDigitCh c && duAux rest

/-- Python `int(str)`: strip whitespace, optional sign, digit run. -/
def pyIntStr (s : String) : Option Int :=
  let t := stripList s.data
  match t with
  | '+' :: rest =>
    if digitsUnderscore rest then some (digitsToNat (rest.filter isDigitCh))
    else none
  | '-' :: rest =>
    if digitsUnderscore rest then
      some (-(digitsToNat (rest.filter isDigitCh) : Int))
    else none
  | _ => if digitsUnderscore t then some (digitsToNat (t.filter isDigitCh)) else none

/-- `datetime(year, 1, 1)`: valid for year in [1, 9999], otherwise the
constructor raises (caught by the enclosing `except` → `None`). -/
def pyDatetimeY (i : Int) : Option PyDateTime :=
  if 1 ≤ i ∧ i ≤ 9999 then some ⟨i.toNat, 1, 1⟩ else none

/-- `ExperienceParser._parse_date_string`.  `duStrict`/`duFuzzy` are
oracles for `dateutil.parser.parse` (strict / `fuzzy=True`); a `none`
result models a parser exception, which the source catches into `None`. -/
def _parse_date_string (duStrict duFuzzy : String → Option PyDateTime)
    (s : String) : Option PyDateTime :=
  if (mRepRange isDigitCh 4 4 mDone none s.data).isSome then
    match pyIntStr s with
    | some i => pyDatetimeY i
    | none => none
  else if (patP3 none s.data).isSome then duFuzzy s
  else if (patP1 none s.data).isSome then duStrict s
  else duFuzzy s

/-- Dates-extraction state: `(start_date, end_date, is_current)`. -/
abbrev DateState := Option PyDateTime × Option PyDateTime × Bool

/-- Processing of one regex match inside `_extract_dates`: the
present/current test (which may set `is_current` and default `end_date`
to `now`) runs before the date-string parse. -/
def processDateMatch (duStrict duFuzzy : String → Option PyDateTime)
    (now : PyDateTime) (st : DateState) (ds : String) : DateState :=
  let start := st.1
  let endD := st.2.1
  let isCur := st.2.2
  let low := lowerList ds.data
  let hasPres := containsSub low "present".data || containsSub low "current".data
  let isCur2 := isCur || hasPres
  let end2 := if hasPres && endD.isNone then some now else endD
  match _parse_date_string duStrict duFuzzy ds with
  | some d =>
    if start.isNone then (some d, end2, isCur2)
    else if end2.isNone && !isCur2 then (start, some d, isCur2)
    else (start, end2, isCur2)
  | none => (start, end2, isCur2)

/-- `ExperienceParser._extract_dates`: the five patterns in order, all
matches of each in order. -/
def _extract_dates (duStrict duFuzzy : String → Option PyDateTime)
    (now : PyDateTime) (text : String) : DateState :=
  [patP1, patP2, patP3, patP4, patP5].foldl
    (fun st pat =>
      (reFinditer pat text).foldl (processDateMatch duStrict duFuzzy now) st)
    (none, none, false)

/-! ## Experience entries and the start-date sort
(`ExperienceParser.extract_experience`). -/

/-- The fields of a parsed experience entry that the embedded code
consumes (`_parse_experience_section` always stores every key, with
`None` where nothing was extracted). -/
structure PyExperience where
  company_name : Option String
  job_title : Option String
  start_date : Option PyDateTime
  end_date : Option PyDateTime
  is_current : Bool
deriving DecidableEq, Repr

/-- Python `datetime` ordering (lexicographic on year, month, day). -/
def dtLt (a b : PyDateTime) : Bool :=
  a.year < b.year ||
  (a.year = b.year && (a.month < b.month ||
    (a.month = b.month && a.day < b.day)))

/-- Python `<` on the sort keys.  The key function is
`x.get('start_date', datetime.min)`; the dict always holds the key
(possibly `None`), so the default is dead and the key is the stored
optional value.  Comparing `None` with a `datetime` (or with `None`)
raises `TypeError`. -/
def pyLtOptDT : Option PyDateTime → Option PyDateTime → Except String Bool
  | some a, some b => .ok (dtLt a b)
  | _, _ => .error "TypeError: unorderable NoneType and datetime"

/-- Stable descending insertion of one element (model of the
comparisons `list.sort(key=..., reverse=True)` performs; any
`None`-involving comparison raises, exactly as in CPython's sort). -/
def insDesc (x : PyExperience) : List PyExperience →
    Except String (List PyExperience)
  | [] => .ok [x]
  | y :: ys => do
    let b ← pyLtOptDT y.start_date x.start_date
    if b then pure (x :: y :: ys)
    else do
      let t ← insDesc x ys
      pure (y :: t)

/-- `experiences.sort(key=lambda x: x.get('start_date', datetime.min),
reverse=True)` as a stable descending sort that propagates the
`TypeError` raised by any `None`-vs-`datetime` key comparison. -/
def sortExperiencesDesc (l : List PyExperience) :
    Except String (List PyExperience) :=
  l.foldlM (fun acc x => insDesc x acc) []

/-- `ExperienceParser.extract_experience`, parameterised by
`_parse_experience_section` (`parseSec`): re-scan into blocks, parse
each block (dropping `None` results), then sort by start date. -/
def extract_experience (parseSec : String → Option PyExperience)
    (text : String) : Except String (List PyExperience) :=
  sortExperiencesDesc ((_identify_experience_sections text).filterMap parseSec)

/-- The education-entry fields the embedded code consumes. -/
structure PyEducation where
  institution_name : Option String
  degree : Option String
  field_of_study : Option String
  gpa : Option ℚ
deriving DecidableEq, Repr

/-- `EducationParser.extract_education`, parameterised by
`_parse_education_section` (`parseSec`). -/
def extract_education (parseSec : String → Option PyEducation)
    (text : String) : List PyEducation :=
  (_identify_education_sections text).filterMap parseSec

/-! ## Skill extraction (`SkillExtractor.extract_skills`). -/

/-- The eight fixed skill categories (`skill_categories` keys, in dict
insertion order). -/
inductive SkillCat where
  | programming_languages | frameworks | databases | cloud_platforms
  | tools | soft_skills | languages | certifications
deriving DecidableEq, Repr

/-- The string name of a category. -/
def catName : SkillCat → String
  | .programming_languages => "programming_languages"
  | .frameworks => "frameworks"
  | .databases => "databases"
  | .cloud_platforms => "cloud_platforms"
  | .tools => "tools"
  | .soft_skills => "soft_skills"
  | .languages => "languages"
  | .certifications => "certifications"

/-- All categories in dict order. -/
def allCats : List SkillCat :=
  [.programming_languages, .frameworks, .databases, .cloud_platforms,
   .tools, .soft_skills, .languages, .certifications]

/-- The empty per-category results dict built at the top of
`extract_skills`, `_extract_skills_spacy`, `_extract_skills_bert` and
`_extract_skills_patterns`. -/
def baseSkillDict : List (String × List SkillInfo) :=
  allCats.map (fun c => (catName c, ([] : List SkillInfo)))

/-- `d[k].append(v)` for a key known to be present. -/
def appendAt (d : List (String × List SkillInfo)) (k : String)
    (v : SkillInfo) : List (String × List SkillInfo) :=
  d.map (fun p => if p.1 = k then (p.1, p.2 ++ [v]) else p)

/-- `results[category].extend(skills)` for a key known to be present
(the source only ever uses the eight `skill_categories` keys). -/
def extendAt (d : List (String × List SkillInfo)) (k : String)
    (vs : List SkillInfo) : List (String × List SkillInfo) :=
  d.map (fun p => if p.1 = k then (p.1, p.2 ++ vs) else p)

/-- Build a per-category dict from categorised mentions in order
(the common shape of `_extract_skills_spacy` / `_extract_skills_bert`:
start from the 8-key empty dict, append each mention under its
category). -/
def buildCatDict (ms : List (SkillCat × SkillInfo)) :
    List (String × List SkillInfo) :=
  ms.foldl (fun d ci => appendAt d (catName ci.1) ci.2) baseSkillDict

/-- `for category, skills in md.items(): results[category].extend(...)`. -/
def dictExtendAll (d md : List (String × List SkillInfo)) :
    List (String × List SkillInfo) :=
  md.foldl (fun acc kv => extendAt acc kv.1 kv.2) d

/-- `SkillExtractor._categorize_skill` over a vocabulary `vocab`
(loaded from the JSON databases or the built-in defaults; only its
membership structure matters): first category, in dict order, holding a
known skill that fuzzily contains / is contained in the mention. -/
def _categorize_skill (vocab : SkillCat → List String) (name : String) :
    Option SkillCat :=
  let nl := lowerList name.data
  allCats.find? (fun c =>
    (vocab c).any (fun sk =>
      containsSub nl (lowerList sk.data) || containsSub (lowerList sk.data) nl))

/-- One entity reported by the BERT NER pipeline oracle. -/
structure BertEnt where
  word : String
  score : ℚ
  startN : Nat
  endN : Nat
deriving DecidableEq, Repr

/-- `text[i:i+512] for i in range(0, len(text), 512)`. -/
def pyChunks : List Char → List (List Char)
  | [] => []
  | c :: rest => ((c :: rest).take 512) :: pyChunks (rest.drop 511)
termination_by l => l.length
decreasing_by
  simp only [List.length_cons]
  have : (rest.drop 511).length ≤ rest.length := by simp [List.length_drop]
  omega

/-- Python slice `l[a:b]` (clamping, `a ≤ b` or empty). -/
def pySlice (l : List Char) (a b : Nat) : List Char :=
  (l.drop a).take (b - a)

/-- `SkillExtractor._extract_skills_bert`, with the NER pipeline as an
oracle from chunk text to entities: keep entities scoring above 0.7,
categorise them against the vocabulary, and record chunk-local context. -/
def _extract_skills_bert (vocab : SkillCat → List String)
    (ner : String → List BertEnt) (text : String) :
    List (String × List SkillInfo) :=
  (pyChunks text.data).foldl
    (fun d chunk =>
      (ner (String.mk chunk)).foldl
        (fun d2 e =>
          if e.score > (7 : ℚ)/10 then
            match _categorize_skill vocab e.word with
            | some c =>
              appendAt d2 (catName c)
                { skill_name := e.word, category := catName c,
                  confidence := e.score, extraction_method := "bert",
                  context := String.mk (pySlice chunk (e.startN - 50) (e.endN + 50)) }
            | none => d2
          else d2)
        d)
    baseSkillDict

/-- `re.finditer` with absolute positions `(start, end)` (used where
the source slices context out of the surrounding text). -/
def finditerPosAux (pat : MRE) : Nat → Option Char → List Char →
    List (Nat × Nat)
  | off, prev, [] =>
    match pat prev [] with
    | some n => if n = 0 then [] else [(off, off + n)]
    | none => []
  | off, prev, c :: rest =>
    match pat prev (c :: rest) with
    | some n =>
      if n = 0 then finditerPosAux pat (off + 1) (some c) rest
      else (off, off + n) ::
        finditerPosAux pat (off + n) ((c :: rest).get? (n - 1)) (rest.drop (n - 1))
    | none => finditerPosAux pat (off + 1) (some c) rest
termination_by _ _ l => l.length
decreasing_by
  · simp
  · simp only [List.length_cons]
    have : (rest.drop (n - 1)).length ≤ rest.length := by
      simp [List.length_drop]
    omega

/-- Positioned matches of a pattern over a string. -/
def reFinditerPos (pat : MRE) (t : String) : List (Nat × Nat) :=
  finditerPosAux pat 0 none t.data

/-- A `\b(lit1|lit2|...)\b` technology-name pattern (IGNORECASE). -/
def patAltWords (lits : List String) : MRE :=
  mBoundary (mAlt (lits.map (fun w => fun k => mLit w.data true k))
    (mBoundary mDone))

/-- The regex table of `_extract_skills_patterns` (categories and
alternation lists exactly as in the source). -/
def skillPatternTable : List (String × List MRE) :=
  [("programming_languages",
    [patAltWords ["Python", "JavaScript", "Java", "C++", "C#", "PHP",
       "Ruby", "Go", "Rust", "Swift", "Kotlin", "TypeScript", "Scala",
       "R", "MATLAB", "Perl", "SQL", "HTML", "CSS"],
     patAltWords ["HTML5", "CSS3", "ES6", "ES7", "ES8", "ES9", "ES10",
       "ES11", "ES12"]]),
   ("frameworks",
    [patAltWords ["React", "Angular", "Vue.js", "Django", "Flask",
       "Spring", "Express.js", "Laravel", "Ruby on Rails", "ASP.NET",
       "FastAPI", "Node.js"],
     patAltWords ["TensorFlow", "PyTorch", "Scikit-learn", "Pandas",
       "NumPy", "Matplotlib", "Seaborn", "Keras", "Hadoop", "Spark"]]),
   ("databases",
    [patAltWords ["MySQL", "PostgreSQL", "MongoDB", "Redis", "SQLite",
       "Oracle", "SQL Server", "Cassandra", "DynamoDB", "Elasticsearch",
       "Neo4j"]]),
   ("cloud_platforms",
    [patAltWords ["AWS", "Azure", "Google Cloud", "Heroku",
       "DigitalOcean", "Docker", "Kubernetes", "Terraform", "Ansible",
       "Jenkins"]])]

/-- In `Vue\.js` and friends the dot is escaped: rebuild the matched
text and context from positions. -/
def sliceOf (l : List Char) (se : Nat × Nat) : String :=
  String.mk (pySlice l se.1 se.2)

/-- `SkillExtractor._extract_skills_patterns`: flat 0.8 confidence for
every regex match, context = 50 characters around the match. -/
def _extract_skills_patterns (text : String) :
    List (String × List SkillInfo) :=
  skillPatternTable.foldl
    (fun d cp =>
      cp.2.foldl
        (fun d2 pat =>
          (reFinditerPos pat text).foldl
            (fun d3 se =>
              appendAt d3 cp.1
                { skill_name := sliceOf text.data se, category := cp.1,
                  confidence := (8 : ℚ)/10, extraction_method := "pattern",
                  context := String.mk
                    (pySlice text.data (se.1 - 50) (se.2 + 50)) })
            d2)
        d)
    baseSkillDict

/-- `SkillExtractor.extract_skills`: start from the eight empty
category lists; extend with the spaCy method's dict when spaCy is
available (`spacyM = some ms`, the categorised mentions in match
order), with the BERT method's dict when the NER pipeline is available,
and always with the pattern method's dict; finally deduplicate each
category.  Method dicts only carry the eight `skill_categories` keys
(their `results` dicts are built from `skill_categories.keys()`), so
`results[category]` never raises. -/
def extract_skills (vocab : SkillCat → List String)
    (spacyM : Option (List (SkillCat × SkillInfo)))
    (bertNer : Option (String → List BertEnt)) (text : String) :
    List (String × List SkillInfo) :=
  let r0 := baseSkillDict
  let r1 := match spacyM with
    | some ms => dictExtendAll r0 (buildCatDict ms)
    | none => r0
  let r2 := match bertNer with
    | some ner => dictExtendAll r1 (_extract_skills_bert vocab ner text)
    | none => r1
  let r3 := dictExtendAll r2 (_extract_skills_patterns text)
  r3.map (fun kv => (kv.1, _deduplicate_skills kv.2))

/-! ## Quality assessment (`QualityAssessor`). -/

/-- Greedy `p{n,}` with backtracking. -/
def mAtLeast (p : Char → Bool) (n : Nat) (k : MRE) : MRE :=
  fun prev s => mRepRange p n s.length k prev s

/-- First character class of the email regex. -/
def emailC1 (c : Char) : Bool :=
  isAlphaCh c || isDigitCh c ||
  (['.', '_', '%', '+', '-'] : List Char).contains c

/-- Domain character class of the email regex. -/
def emailC2 (c : Char) : Bool :=
  isAlphaCh c || isDigitCh c || c = '.' || c = '-'

/-- Final class `[A-Z|a-z]` of the email regex (the bar is literal). -/
def emailC3 (c : Char) : Bool := isAlphaCh c || c = '|'

/-- `\b[A-Za-z0-9._%+-]+@[A-Za-z0-9.-]+\.[A-Z|a-z]{2,}\b`. -/
def patEmail : MRE :=
  mBoundary (mPlus emailC1 (mLit ['@'] false (mPlus emailC2
    (mLit ['.'] false (mAtLeast emailC3 2 (mBoundary mDone))))))

/-- `[-.]` separator class of the phone regex. -/
def phoneSep (c : Char) : Bool := c = '-' || c = '.'

/-- `\b\d{3}[-.]?\d{3}[-.]?\d{4}\b`. -/
def patPhone : MRE :=
  mBoundary (mRepRange isDigitCh 3 3 (mRepRange phoneSep 0 1
    (mRepRange isDigitCh 3 3 (mRepRange phoneSep 0 1
      (mRepRange isDigitCh 4 4 (mBoundary mDone))))))

/-- `re.search(pat, t)`: does the pattern match at any position? -/
def reSearchAux (pat : MRE) : Option Char → List Char → Bool
  | prev, [] => (pat prev []).isSome
  | prev, c :: rest =>
    (pat prev (c :: rest)).isSome || reSearchAux pat (some c) rest

/-- Search over a string. -/
def reSearchM (pat : MRE) (t : String) : Bool := reSearchAux pat none t.data

/-- `QualityAssessor._has_contact_info`. -/
def _has_contact_info (t : String) : Bool :=
  reSearchM patEmail t || reSearchM patPhone t

/-- Python `str.split('\n')` keeping empty pieces. -/
def pySplitNl (t : String) : List String := t.splitOn "\n"

/-- Python whitespace `str.split()` (no empties). -/
def wordsOf : List Char → List (List Char)
  | [] => []
  | c :: rest =>
    if isWsCh c then wordsOf rest
    else (c :: rest.takeWhile (fun x => !isWsCh x)) ::
      wordsOf (rest.dropWhile (fun x => !isWsCh x))
termination_by l => l.length
decreasing_by
  · simp
  · simp only [List.length_cons]
    have : (rest.dropWhile (fun x => !isWsCh x)).length ≤ rest.length :=
      (List.dropWhile_suffix _).sublist.length_le
    omega

/-- Python word count `len(text.split())`. -/
def pyWordCount (t : String) : Nat := (wordsOf t.data).length

/-- `line.strip().startswith(('•', '-', '*'))`. -/
def startsBullet (s : String) : Bool :=
  match (stripStr s).data with
  | c :: _ => c = '•' || c = '-' || c = '*'
  | [] => false

/-- `QualityAssessor._has_consistent_formatting`. -/
def _has_consistent_formatting (text : String) : Bool :=
  let lines := pySplitNl text
  let bp := (lines.filter startsBullet).length
  bp > 0 && decide ((bp : ℚ) < (lines.length : ℚ) * (8/10 : ℚ))

/-- `QualityAssessor._has_logical_flow`: last 'experience'-containing
key index must precede last 'education'-containing key index (either
absent also passes). -/
def _has_logical_flow (sections : List (String × String)) : Bool :=
  let r := (sections.map Prod.fst).enum.foldl
    (fun (p : Int × Int) ie =>
      if containsSub (lowerList ie.2.data) "experience".data then
        (Int.ofNat ie.1, p.2)
      else if containsSub (lowerList ie.2.data) "education".data then
        (p.1, Int.ofNat ie.1)
      else p)
    (-1, -1)
  decide (r.1 < r.2) || decide (r.1 = -1) || decide (r.2 = -1)

/-- The fixed action-verb list of `_count_action_verbs`. -/
def actionVerbs : List String :=
  ["developed", "implemented", "managed", "led", "created", "designed",
   "built", "maintained", "improved", "increased", "decreased",
   "achieved", "coordinated", "organized", "planned", "executed",
   "delivered", "launched", "established", "grew", "expanded",
   "optimized", "streamlined", "enhanced"]

/-- `QualityAssessor._count_action_verbs`. -/
def _count_action_verbs (text : String) : Nat :=
  (actionVerbs.filter (fun v => containsSub (lowerList text.data) v.data)).length

/-- The six quantifiable-achievement regexes (IGNORECASE). -/
def quantPatterns : List MRE :=
  [mPlus isDigitCh (mLit ['%'] false mDone),
   mLit ['$'] false (mPlus isDigitCh mDone),
   mPlus isDigitCh (mPlus isWsCh (mAlt
     (["people", "employees", "users", "customers"].map
       (fun w => fun k => mLit w.data true k)) mDone)),
   mPlus isDigitCh (mPlus isWsCh (mAlt
     (["years", "months", "weeks"].map
       (fun w => fun k => mLit w.data true k)) mDone)),
   mLit "increased".data true (mPlus isWsCh (mLit "by".data true
     (mPlus isWsCh (mPlus isDigitCh mDone)))),
   mLit "decreased".data true (mPlus isWsCh (mLit "by".data true
     (mPlus isWsCh (mPlus isDigitCh mDone))))]

/-- `QualityAssessor._count_quantifiable_achievements`. -/
def _count_quantifiable_achievements (text : String) : Nat :=
  (quantPatterns.map (fun p => (reFinditer p text).length)).sum

/-- `QualityAssessor._has_recent_experience` (needs `now`). -/
def _has_recent_experience (now : PyDateTime) (exps : List PyExperience) :
    Bool :=
  exps.any (fun e =>
    match e.end_date with
    | some d => decide ((d.year : Int) ≥ (now.year : Int) - 2)
    | none => false)

/-- The relevant-field literal list of `_has_relevant_education`. -/
def relevantFields : List String :=
  ["computer", "engineering", "science", "technology", "business",
   "management", "administration", "mathematics", "statistics"]

/-- `QualityAssessor._has_relevant_education`: NOTE the source calls
`.lower()` on `edu.get('field_of_study', '')`, and the education dict
always holds that key (possibly `None`), so a `None` field raises
`AttributeError`. -/
def _has_relevant_education : List PyEducation → Except String Bool
  | [] => .ok false
  | e :: rest =>
    match e.field_of_study with
    | none => .error "AttributeError: NoneType has no attribute lower"
    | some f =>
      if relevantFields.any (fun r => containsSub (lowerList f.data) r.data)
      then .ok true
      else _has_relevant_education rest

/-- The fixed ATS keyword list. -/
def atsKeywords : List String :=
  ["experience", "skills", "education", "work", "job", "position",
   "responsibilities", "achievements", "leadership", "management",
   "project", "team", "development", "analysis", "design"]

/-- `QualityAssessor._has_simple_formatting` (the formatting characters
are asterisk, underscore and backtick). -/
def _has_simple_formatting (text : String) : Bool :=
  let fc := (text.data.filter (fun c =>
    c = '*' || c = '_' || c = Char.ofNat 96)).length
  decide ((fc : ℚ) < (text.data.length : ℚ) * (5/100 : ℚ))

/-- `QualityAssessor._is_standard_header`. -/
def _is_standard_header (name : String) : Bool :=
  ["experience", "education", "skills", "summary", "contact", "work",
   "employment", "qualifications", "achievements"].any
    (fun h => containsSub (lowerList name.data) h.data)

/-- `QualityAssessor._has_obvious_errors`. -/
def _has_obvious_errors (text : String) : Bool :=
  ["teh", "recieve", "seperate", "occured", "definately"].any
    (fun w => containsSub (lowerList text.data) w.data)

/-- `QualityAssessor._has_professional_tone`. -/
def _has_professional_tone (text : String) : Bool :=
  !(["awesome", "cool", "stuff", "things", "guy", "dude"].any
    (fun w => containsSub (lowerList text.data) w.data))

/-- `QualityAssessor._has_inappropriate_language`. -/
def _has_inappropriate_language (text : String) : Bool :=
  ["fuck", "shit", "damn", "hell"].any
    (fun w => containsSub (lowerList text.data) w.data)

/-- `QualityAssessor._assess_completeness`: five required sections,
skills / experience / education non-empty, contact info — out of nine
checks. -/
def _assess_completeness (sections : List (String × String))
    (skills : List (String × List SkillInfo))
    (experience : List PyExperience) (education : List PyEducation) : ℚ :=
  let secScore : ℚ :=
    (["contact", "summary", "experience", "education", "skills"].map
      (fun sec =>
        match sections.lookup sec with
        | some v => if stripStr v ≠ "" then (1 : ℚ) else 0
        | none => 0)).sum
  let skScore : ℚ :=
    if skills ≠ [] ∧ skills.any (fun kv => kv.2.length > 0) then 1 else 0
  let exScore : ℚ := if experience ≠ [] then 1 else 0
  let edScore : ℚ := if education ≠ [] then 1 else 0
  let ctScore : ℚ :=
    match sections.lookup "contact" with
    | some v => if _has_contact_info v then 1 else 0
    | none => 0
  (secScore + skScore + exScore + edScore + ctScore) / 9

/-- `QualityAssessor._assess_structure`: section count, formatting,
logical flow, word-count band — out of four checks. -/
def _assess_structure (text : String)
    (sections : List (String × String)) : ℚ :=
  let s1 : ℚ := if sections.length ≥ 3 then 1 else 0
  let s2 : ℚ := if _has_consistent_formatting text then 1 else 0
  let s3 : ℚ := if _has_logical_flow sections then 1 else 0
  let wc := pyWordCount text
  let s4 : ℚ :=
    if 200 ≤ wc ∧ wc ≤ 800 then 1
    else if 100 ≤ wc ∧ wc ≤ 1200 then 7/10
    else if wc > 1200 then 3/10
    else 0
  (s1 + s2 + s3 + s4) / 4

/-- `QualityAssessor._assess_content_quality` (propagates the
`AttributeError` of `_has_relevant_education`). -/
def _assess_content_quality (now : PyDateTime) (text : String)
    (experience : List PyExperience) (education : List PyEducation) :
    Except String ℚ := do
  let av := _count_action_verbs text
  let s1 : ℚ := if av ≥ 5 then 1 else if av ≥ 3 then 7/10
                else if av ≥ 1 then 4/10 else 0
  let qa := _count_quantifiable_achievements text
  let s2 : ℚ := if qa ≥ 3 then 1 else if qa ≥ 1 then 6/10 else 0
  let s3 : ℚ :=
    if experience ≠ [] ∧ _has_recent_experience now experience then 1 else 0
  let s4 : ℚ ←
    if education ≠ [] then do
      let b ← _has_relevant_education education
      pure (if b then (1 : ℚ) else 0)
    else pure 0
  pure ((s1 + s2 + s3 + s4) / 4)

/-- `QualityAssessor._assess_ats_compatibility`. -/
def _assess_ats_compatibility (text : String)
    (sections : List (String × String)) : ℚ :=
  let km := (atsKeywords.filter
    (fun kw => containsSub (lowerList text.data) kw.data)).length
  let s1 : ℚ := if km ≥ 8 then 1 else if km ≥ 5 then 7/10
                else if km ≥ 3 then 4/10 else 0
  let s2 : ℚ := if _has_simple_formatting text then 1 else 0
  let sh := ((sections.map Prod.fst).filter _is_standard_header).length
  let s3 : ℚ := if sh ≥ 3 then 1 else if sh ≥ 2 then 7/10 else 0
  (s1 + s2 + s3) / 3

/-- `QualityAssessor._assess_professionalism`: three binary
absence-style checks averaged (an empty text trivially passes all
three). -/
def _assess_professionalism (text : String) : ℚ :=
  let s1 : ℚ := if !_has_obvious_errors text then 1 else 0
  let s2 : ℚ := if _has_professional_tone text then 1 else 0
  let s3 : ℚ := if !_has_inappropriate_language text then 1 else 0
  (s1 + s2 + s3) / 3

/-- `QualityAssessor._generate_suggestions` (general weak-area messages
in fixed order, then specific gap callouts). -/
def _generate_suggestions (c s q a p : ℚ)
    (skills : List (String × List SkillInfo))
    (experience : List PyExperience) (education : List PyEducation) :
    List String :=
  (if c < 7/10 then
    ["Add missing required sections (contact, summary, experience, education, skills)"]
   else []) ++
  (if s < 7/10 then
    ["Improve resume structure with clear section headers and consistent formatting"]
   else []) ++
  (if q < 7/10 then
    ["Add more action verbs and quantifiable achievements to make your experience stand out"]
   else []) ++
  (if a < 7/10 then
    ["Include more industry-specific keywords to improve ATS compatibility"]
   else []) ++
  (if p < 7/10 then
    ["Review and improve writing quality and professional tone"]
   else []) ++
  (if skills = [] ∨ ¬ skills.any (fun kv => kv.2.length > 0) then
    ["Add a comprehensive skills section with technical and soft skills"]
   else []) ++
  (if experience = [] then
    ["Include relevant work experience with specific achievements"]
   else []) ++
  (if education = [] then
    ["Add your educational background and relevant certifications"]
   else [])

/-- `QualityAssessor._identify_strengths`. -/
def _identify_strengths (sections : List (String × String))
    (skills : List (String × List SkillInfo))
    (experience : List PyExperience) (education : List PyEducation) :
    List String :=
  (if sections.length ≥ 4 then
    ["Well-organized with multiple relevant sections"] else []) ++
  (if skills ≠ [] ∧ skills.any (fun kv => kv.2.length > 5) then
    ["Comprehensive skills section"] else []) ++
  (if experience ≠ [] ∧ experience.length ≥ 2 then
    ["Multiple work experiences showing career progression"] else []) ++
  (if education ≠ [] ∧ education.length ≥ 1 then
    ["Strong educational background"] else [])

/-- `QualityAssessor._identify_weaknesses`. -/
def _identify_weaknesses (sections : List (String × String))
    (skills : List (String × List SkillInfo))
    (experience : List PyExperience) (education : List PyEducation) :
    List String :=
  (if sections.length < 3 then
    ["Missing important resume sections"] else []) ++
  (if skills = [] ∨ ¬ skills.any (fun kv => kv.2.length > 0) then
    ["No skills section or insufficient skills listed"] else []) ++
  (if experience = [] then ["No work experience listed"] else []) ++
  (if education = [] then ["No educational background provided"] else [])

/-- `QualityAssessor._calculate_grade`: the literal threshold chain. -/
def _calculate_grade (score : ℚ) : String :=
  if score ≥ 9/10 then "A+"
  else if score ≥ 85/100 then "A"
  else if score ≥ 8/10 then "A-"
  else if score ≥ 75/100 then "B+"
  else if score ≥ 7/10 then "B"
  else if score ≥ 65/100 then "B-"
  else if score ≥ 6/10 then "C+"
  else if score ≥ 55/100 then "C"
  else if score ≥ 5/10 then "C-"
  else "D"

/-- Python `round(x, 2)` (banker's rounding, exact on rationals). -/
def pyRound2 (x : ℚ) : ℚ :=
  let y := x * 100
  let n : ℤ := ⌊y⌋
  let r := y - (n : ℚ)
  let k : ℤ :=
    if r < 1/2 then n
    else if r > 1/2 then n + 1
    else if n % 2 = 0 then n else n + 1
  (k : ℚ) / 100

/-- The result record of `assess_resume_quality`. -/
structure QualityAssessment where
  overall_score : ℚ
  completeness : ℚ
  structureScore : ℚ
  content_quality : ℚ
  ats_compatibility : ℚ
  professionalism : ℚ
  suggestions : List String
  strengths : List String
  weaknesses : List String
  grade : String
deriving DecidableEq, Repr

/-- `QualityAssessor.assess_resume_quality`: the five component scores,
the fixed-weight overall score (grade computed from the unrounded
value, stored scores rounded to two decimals). -/
def assess_resume_quality (now : PyDateTime) (text : String)
    (sections : List (String × String))
    (skills : List (String × List SkillInfo))
    (experience : List PyExperience) (education : List PyEducation) :
    Except String QualityAssessment := do
  let c := _assess_completeness sections skills experience education
  let s := _assess_structure text sections
  let q ← _assess_content_quality now text experience education
  let a := _assess_ats_compatibility text sections
  let p := _assess_professionalism text
  let overall := c * (25/100) + s * (20/100) + q * (25/100) +
    a * (15/100) + p * (15/100)
  pure
    { overall_score := pyRound2 overall
      completeness := pyRound2 c
      structureScore := pyRound2 s
      content_quality := pyRound2 q
      ats_compatibility := pyRound2 a
      professionalism := pyRound2 p
      suggestions := _generate_suggestions c s q a p skills experience education
      strengths := _identify_strengths sections skills experience education
      weaknesses := _identify_weaknesses sections skills experience education
      grade := _calculate_grade overall }

/-! ## Whole-resume section segmentation
(`TextExtractor.identify_sections`) and the orchestrator
(`ResumeParser.parse_resume_text`). -/

/-- The ordered header-pattern table of `identify_sections`; every
pattern is `(?i)(lit|lit|...)` with two spaced alternatives
(`work\s+history`, `language\s+skills`); the first matching entry
wins. -/
def sectionPatternTable : List (String × (String → Bool)) :=
  [("contact", fun l => reSearchLit "contact" l || reSearchLit "personal" l ||
      reSearchLit "info" l || reSearchLit "information" l),
   ("summary", fun l => reSearchLit "summary" l || reSearchLit "profile" l ||
      reSearchLit "objective" l || reSearchLit "about" l),
   ("experience", fun l => reSearchLit "experience" l ||
      reSearchTwoWords "work" "history" l || reSearchLit "employment" l ||
      reSearchLit "career" l),
   ("education", fun l => reSearchLit "education" l ||
      reSearchLit "academic" l || reSearchLit "qualifications" l),
   ("skills", fun l => reSearchLit "skills" l ||
      reSearchLit "competencies" l || reSearchLit "technologies" l ||
      reSearchLit "tools" l),
   ("projects", fun l => reSearchLit "projects" l ||
      reSearchLit "portfolio" l || reSearchLit "achievements" l),
   ("certifications", fun l => reSearchLit "certifications" l ||
      reSearchLit "certificates" l || reSearchLit "licenses" l),
   ("languages", fun l => reSearchLit "languages" l ||
      reSearchTwoWords "language" "skills" l),
   ("interests", fun l => reSearchLit "interests" l ||
      reSearchLit "hobbies" l || reSearchLit "activities" l)]

/-- First section pattern matching a line, if any. -/
def sectionHeaderOf (line : String) : Option String :=
  (sectionPatternTable.find? (fun np => np.2 line)).map Prod.fst

/-- `sections[name] = value` (update in place, else append). -/
def pyDictSet (d : List (String × String)) (k v : String) :
    List (String × String) :=
  if (d.lookup k).isSome then
    d.map (fun kv => if kv.1 = k then (k, v) else kv)
  else d ++ [(k, v)]

/-- The line loop of `identify_sections`: blank lines are skipped, a
header line flushes the current buffer (under the *current* label) and
switches to the matched label without keeping the header line, other
lines accumulate. -/
def identifySectionsAux : List String → String → List String →
    List (String × String) → List (String × String)
  | [], curName, content, d =>
    if content ≠ [] then
      pyDictSet d curName (stripStr (String.intercalate "\n" content))
    else d
  | ln :: rest, curName, content, d =>
    let l := stripStr ln
    if l = "" then identifySectionsAux rest curName content d
    else
      match sectionHeaderOf l with
      | some name =>
        let d2 :=
          if content ≠ [] then
            pyDictSet d curName (stripStr (String.intercalate "\n" content))
          else d
        identifySectionsAux rest name [] d2
      | none => identifySectionsAux rest curName (content ++ [l]) d

/-- `TextExtractor.identify_sections`. -/
def identify_sections (text : String) : List (String × String) :=
  identifySectionsAux (pySplitNl text) "header" [] []

/-- The aggregate output of `ResumeParser.parse_resume_text` (the
fields the claims speak about). -/
structure ParsedOut where
  cleaned_text : String
  sections : List (String × String)
  skills : List (String × List SkillInfo)
  experience : List PyExperience
  education : List PyEducation
  quality : QualityAssessment
deriving DecidableEq, Repr

/-- `ResumeParser.parse_resume_text`: clean, segment, extract skills /
experience / education, assess quality.  Parameters: skill vocabulary,
spaCy and BERT oracles, the two per-block section parsers, and `now`.
Any exception a stage raises propagates (the orchestrator re-raises). -/
def parse_resume_text (vocab : SkillCat → List String)
    (spacyM : Option (List (SkillCat × SkillInfo)))
    (bertNer : Option (String → List BertEnt))
    (parseExpSec : String → Option PyExperience)
    (parseEduSec : String → Option PyEducation)
    (now : PyDateTime) (text : String) : Except String ParsedOut := do
  let cleaned := _clean_text text
  let sections := identify_sections cleaned
  let skills := extract_skills vocab spacyM bertNer cleaned
  let experience ← extract_experience parseExpSec cleaned
  let education := extract_education parseEduSec cleaned
  let quality ← assess_resume_quality now cleaned sections skills
    experience education
  pure ⟨cleaned, sections, skills, experience, education, quality⟩

/-! ## Spec-side definitions and shared concrete instantiations. -/

/-- Spec-side grade table: "A+ ≥0.9 down to D <0.5, in 0.05 steps"
(threshold, grade), highest first; written from the spec's words for
comparison with `_calculate_grade`. -/
def gradeTable : List (ℚ × String) :=
  [(9/10, "A+"), (85/100, "A"), (8/10, "A-"), (75/100, "B+"),
   (7/10, "B"), (65/100, "B-"), (6/10, "C+"), (55/100, "C"),
   (5/10, "C-")]

/-- Spec-side step function: first threshold at or below the score
wins, anything below 0.5 is a "D". -/
def gradeSpec (s : ℚ) : String :=
  ((gradeTable.find? (fun b => decide (b.1 ≤ s))).map Prod.snd).getD "D"

/-- Empty skill vocabulary (concrete oracle instantiation). -/
def vocabNone : SkillCat → List String := fun _ => []

/-- `dateutil` oracle that always fails (concrete instantiation; the
inputs the claims evaluate never reach the oracle branches). -/
def duOracleNone : String → Option PyDateTime := fun _ => none

/-- Experience-block parser oracle returning nothing. -/
def parseExpNone : String → Option PyExperience := fun _ => none

/-- Education-block parser oracle returning nothing. -/
def parseEduNone : String → Option PyEducation := fun _ => none

/-- A concrete processing time. -/
def nowDemo : PyDateTime := ⟨2026, 10, 12⟩

/-- No two adjacent whitespace characters (the relation used to state
that collapsed text has only length-one whitespace runs). -/
def WsOk (a b : Char) : Prop := ¬(isWsCh a = true ∧ isWsCh b = true)

/-- A character list in collapsed form: every whitespace character is a
plain space and no two whitespace characters are adjacent. -/
def goodWs (l : List Char) : Prop :=
  (∀ c ∈ l, isWsCh c = true → c = spaceChar) ∧ List.Chain' WsOk l

/-- Decidable equality for `Except` results (component-wise). -/
instance exceptDecEq {e a : Type} [DecidableEq e] [DecidableEq a] :
    DecidableEq (Except e a) := fun x y =>
  match x, y with
  | .ok v, .ok w =>
    if h : v = w then isTrue (by rw [h]) else isFalse (by simp [h])
  | .error v, .error w =>
    if h : v = w then isTrue (by rw [h]) else isFalse (by simp [h])
  | .ok _, .error _ => isFalse (by simp)
  | .error _, .ok _ => isFalse (by simp)

/-! # Theorems -/

/-- Keys are unchanged by an in-place append. -/
theorem keys_appendAt (d : List (String × List SkillInfo)) (k : String)
    (v : SkillInfo) : (appendAt d k v).map Prod.fst = d.map Prod.fst := by
  unfold appendAt
  rw [List.map_map]
  apply List.map_congr_left
  intro p _
  by_cases h : p.1 = k <;> simp [h]

/-- Keys are unchanged by an in-place extend. -/
theorem keys_extendAt (d : List (String × List SkillInfo)) (k : String)
    (vs : List SkillInfo) :
    (extendAt d k vs).map Prod.fst = d.map Prod.fst := by
  unfold extendAt
  rw [List.map_map]
  apply List.map_congr_left
  intro p _
  by_cases h : p.1 = k <;> simp [h]

/-- Unfolding step of `dictExtendAll`. -/
theorem dictExtendAll_cons (d : List (String × List SkillInfo))
    (kv : String × List SkillInfo) (rest : List (String × List SkillInfo)) :
    dictExtendAll d (kv :: rest) =
      dictExtendAll (extendAt d kv.1 kv.2) rest := rfl

/-- Extending with any method dict leaves the key list unchanged. -/
theorem keys_dictExtendAll (md : List (String × List SkillInfo)) :
    ∀ d, (dictExtendAll d md).map Prod.fst = d.map Prod.fst := by
  induction md with
  | nil => intro d; rfl
  | cons kv rest ih =>
    intro d
    rw [dictExtendAll_cons, ih, keys_extendAt]

/-- Mapping the values of a dict leaves the key list unchanged. -/
theorem keys_mapValues (g : String × List SkillInfo → List SkillInfo)
    (d : List (String × List SkillInfo)) :
    (d.map (fun kv => (kv.1, g kv))).map Prod.fst = d.map Prod.fst := by
  rw [List.map_map]
  apply List.map_congr_left
  intro p _
  rfl

/-- C10: whichever optional extraction methods are present (spaCy
matches, BERT pipeline) and whatever the input text, `extract_skills`
returns a mapping with exactly the eight fixed category keys, in order,
and no others. -/
theorem C10_eight_category_keys (vocab : SkillCat → List String)
    (spacyM : Option (List (SkillCat × SkillInfo)))
    (bertNer : Option (String → List BertEnt)) (text : String) :
    (extract_skills vocab spacyM bertNer text).map Prod.fst =
      ["programming_languages", "frameworks", "databases",
       "cloud_platforms", "tools", "soft_skills", "languages",
       "certifications"] := by
  unfold extract_skills
  cases spacyM <;> cases bertNer <;>
    simp only [keys_mapValues, keys_dictExtendAll] <;> rfl

/-- C2: two mentions of "Python" in one category with confidences 0.6
then 0.9 merge into one entry with the max confidence 0.9, but the
extraction method and context stay those of the *first* mention: the
attribution-update branch compares against the already-maximised
confidence and never fires. -/
theorem C2_dedup_attribution_stays_first :
    _deduplicate_skills
      [⟨"Python", "programming_languages", 6/10, "pattern", "ctxA"⟩,
       ⟨"Python", "programming_languages", 9/10, "bert", "ctxB"⟩] =
      [⟨"Python", "programming_languages", 9/10, "pattern", "ctxA"⟩] := by
  with_unfolding_all decide

/-- C3: sorting entries by `x.get('start_date', datetime.min)` raises
`TypeError` as soon as an entry whose stored `start_date` is `None`
is compared with a dated one — the default never applies because the
key is always present. -/
theorem C3_sort_raises_on_missing_start_date :
    sortExperiencesDesc
      [⟨none, some "Software Engineer 01/15/2020", some ⟨2020, 1, 15⟩,
        none, false⟩,
       ⟨none, some "Product Manager", none, none, false⟩] =
      .error "TypeError: unorderable NoneType and datetime" := by
  with_unfolding_all rfl

/-- C4: `re.findall(r'\b(19|20)\d{2}\b', ...)` returns the captured
century prefix, so "2015 - 2019" produces start/end dates in year 20,
not January 1 2015 / December 31 2019. -/
theorem C4_bare_year_extraction_truncates :
    _extract_education_dates
        "Bachelor of Science, Stanford University, 2015 - 2019" =
      (some ⟨20, 1, 1⟩, some ⟨20, 12, 31⟩) ∧
    ((some (⟨20, 1, 1⟩ : PyDateTime), some (⟨20, 12, 31⟩ : PyDateTime)) ≠
      (some ⟨2015, 1, 1⟩, some ⟨2019, 12, 31⟩)) := by
  exact ⟨by with_unfolding_all decide, by decide⟩

/-- C5 (counterexample): the narrow re-scanners keep the matched header
line as the first line of the produced block, unlike the whole-resume
segmenter's contract of dropping it. -/
theorem C5_counterexample_header_kept :
    _identify_experience_sections "Experience\nGoogle Inc" =
      ["Experience\nGoogle Inc"] ∧
    isExperienceHeaderLine "Experience" = true ∧
    _identify_education_sections "Education\nStanford University" =
      ["Education\nStanford University"] ∧
    isEduHeaderLine "Education" = true := by
  refine ⟨?_, ?_, ?_, ?_⟩ <;> with_unfolding_all decide

/-- C7 (counterexample): the text "2018 - 2019 - Present" contains the
substring "2019 - Present", yet date extraction leaves
`is_current = False` with no end date: the non-overlapping scan of
pattern 4 consumes "2018 - 2019" and never matches the "Present"
part. -/
theorem C7_counterexample_overlap :
    _extract_dates duOracleNone duOracleNone nowDemo
        "2018 - 2019 - Present" = (none, none, false) ∧
    containsSub "2018 - 2019 - Present".data "2019 - Present".data = true := by
  refine ⟨?_, ?_⟩ <;> with_unfolding_all decide

/-- C7 (amended): on the exact input "2019 - Present" the extractor
sets `is_current = True` and defaults the end date to `now`, for any
`dateutil` behaviour (the only parsed candidate "2019 - Present" dies
in `int()` before reaching the oracles). -/
theorem C7_present_range_sets_now
    (duS duF : String → Option PyDateTime) (now : PyDateTime) :
    _extract_dates duS duF now "2019 - Present" = (none, some now, true) := by
  with_unfolding_all rfl

/-- C8: the letter grade is a step function of the overall score alone,
agreeing with the spec-side 0.05-step threshold table everywhere, with
0.90 ↦ "A+", 0.89 ↦ "A" and 0.49 ↦ "D". -/
theorem C8_grade_step_function :
    (∀ s : ℚ, _calculate_grade s = gradeSpec s) ∧
    _calculate_grade (9/10) = "A+" ∧
    _calculate_grade (89/100) = "A" ∧
    _calculate_grade (49/100) = "D" := by
  refine ⟨fun s => ?_, by with_unfolding_all decide,
    by with_unfolding_all decide, by with_unfolding_all decide⟩
  by_cases h1 : (9/10 : ℚ) ≤ s
  · simp [_calculate_grade, gradeSpec, gradeTable, List.find?, h1]
  by_cases h2 : (85/100 : ℚ) ≤ s
  · simp [_calculate_grade, gradeSpec, gradeTable, List.find?, h1, h2]
  by_cases h3 : (8/10 : ℚ) ≤ s
  · simp [_calculate_grade, gradeSpec, gradeTable, List.find?, h1, h2, h3]
  by_cases h4 : (75/100 : ℚ) ≤ s
  · simp [_calculate_grade, gradeSpec, gradeTable, List.find?, h1, h2, h3, h4]
  by_cases h5 : (7/10 : ℚ) ≤ s
  · simp [_calculate_grade, gradeSpec, gradeTable, List.find?, h1, h2, h3,
      h4, h5]
  by_cases h6 : (65/100 : ℚ) ≤ s
  · simp [_calculate_grade, gradeSpec, gradeTable, List.find?, h1, h2, h3,
      h4, h5, h6]
  by_cases h7 : (6/10 : ℚ) ≤ s
  · simp [_calculate_grade, gradeSpec, gradeTable, List.find?, h1, h2, h3,
      h4, h5, h6, h7]
  by_cases h8 : (55/100 : ℚ) ≤ s
  · simp [_calculate_grade, gradeSpec, gradeTable, List.find?, h1, h2, h3,
      h4, h5, h6, h7, h8]
  by_cases h9 : (5/10 : ℚ) ≤ s
  · simp [_calculate_grade, gradeSpec, gradeTable, List.find?, h1, h2, h3,
      h4, h5, h6, h7, h8, h9]
  · simp [_calculate_grade, gradeSpec, gradeTable, List.find?, h1, h2, h3,
      h4, h5, h6, h7, h8, h9]

/-- C9: whenever the text contains "GPA: 5.0" and no GPA-pattern match
parses into [0.0, 4.0], extraction reports no GPA (`None`) rather than
an error: the first match is range-checked and rejected. -/
theorem C9_gpa_rejects_out_of_range (text : String)
    (h1 : containsSub text.data "GPA: 5.0".data = true)
    (h2 : ∀ v ∈ gpaScan text.data, ¬(0 ≤ v ∧ v ≤ 4)) :
    _extract_gpa text = none := by
  unfold _extract_gpa
  cases hh : (gpaScan text.data).head? with
  | none => rfl
  | some v =>
    have hv : v ∈ gpaScan text.data :=
      List.mem_of_mem_head? (Option.mem_def.mpr hh)
    simp [h2 v hv]

/-- Witness for C9 at the concrete text "GPA: 5.0". -/
theorem C9_gpa_rejects_out_of_range_witness :
    containsSub "GPA: 5.0".data "GPA: 5.0".data = true ∧
    (∀ v ∈ gpaScan "GPA: 5.0".data, ¬(0 ≤ v ∧ v ≤ 4)) ∧
    _extract_gpa "GPA: 5.0" = none :=
  ⟨by with_unfolding_all decide, by with_unfolding_all decide,
   C9_gpa_rejects_out_of_range "GPA: 5.0" (by with_unfolding_all decide)
     (by with_unfolding_all decide)⟩

/-- C1 (counterexample): on empty input the text-only pipeline returns
an overall score of 0.2, not 0 — professionalism trivially scores 1.0
and the vacuous logical-flow check gives structure 0.25. -/
theorem C1_counterexample_score_not_zero :
    (parse_resume_text vocabNone none none parseExpNone parseEduNone
        nowDemo "").toOption.map (fun r => r.quality.overall_score) =
      some (1/5) ∧ ((1/5 : ℚ) ≠ 0) := by
  refine ⟨by with_unfolding_all decide, by norm_num⟩

/-- Cleaning the empty text yields the empty text. -/
theorem clean_text_empty : _clean_text "" = "" := rfl

/-- The whole-resume segmenter finds no sections in empty text. -/
theorem identify_sections_empty : identify_sections "" = [] := by
  with_unfolding_all rfl

/-- The experience re-scanner finds no blocks in empty text. -/
theorem exp_sections_empty : _identify_experience_sections "" = [] := by
  with_unfolding_all rfl

/-- The education re-scanner finds no blocks in empty text. -/
theorem edu_sections_empty : _identify_education_sections "" = [] := by
  with_unfolding_all rfl

/-- Experience extraction on empty text returns an empty list without
raising, whatever the block parser does. -/
theorem extract_experience_empty (p : String → Option PyExperience) :
    extract_experience p "" = .ok [] := by
  unfold extract_experience
  rw [exp_sections_empty]
  rfl

/-- Education extraction on empty text returns an empty list. -/
theorem extract_education_empty (p : String → Option PyEducation) :
    extract_education p "" = [] := by
  unfold extract_education
  rw [edu_sections_empty]
  rfl

/-- The BERT method produces the empty dict on empty text (the chunk
list is empty), whatever the pipeline oracle does. -/
theorem bert_empty (vocab : SkillCat → List String)
    (ner : String → List BertEnt) :
    _extract_skills_bert vocab ner "" = baseSkillDict := by
  with_unfolding_all rfl

/-- The pattern method matches nothing in empty text. -/
theorem patterns_empty : _extract_skills_patterns "" = baseSkillDict := by
  with_unfolding_all rfl

/-- Extending the empty dict by the empty dict changes nothing. -/
theorem extend_base_base :
    dictExtendAll baseSkillDict baseSkillDict = baseSkillDict := by
  with_unfolding_all rfl

/-- Deduplicating the empty category lists changes nothing. -/
theorem dedup_base :
    baseSkillDict.map (fun kv => (kv.1, _deduplicate_skills kv.2)) =
      baseSkillDict := by
  with_unfolding_all rfl

/-- Skill extraction on empty text yields the eight empty categories,
for any vocabulary, any BERT behaviour, and any spaCy availability that
reports no mentions. -/
theorem extract_skills_empty (vocab : SkillCat → List String)
    (spacyM : Option (List (SkillCat × SkillInfo)))
    (bertNer : Option (String → List BertEnt))
    (hs : ∀ ms, spacyM = some ms → ms = []) :
    extract_skills vocab spacyM bertNer "" = baseSkillDict := by
  unfold extract_skills
  rcases spacyM with _ | ms
  · rcases bertNer with _ | ner
    · simp only [patterns_empty, extend_base_base, dedup_base]
    · simp only [bert_empty, patterns_empty, extend_base_base, dedup_base]
  · have hms : ms = [] := hs ms rfl
    subst hms
    have hb : buildCatDict [] = baseSkillDict := rfl
    rcases bertNer with _ | ner
    · simp only [hb, patterns_empty, extend_base_base, dedup_base]
    · simp only [hb, bert_empty, patterns_empty, extend_base_base,
        dedup_base]

/-- No entry means no recent experience, for any `now`. -/
theorem recent_empty (now : PyDateTime) :
    _has_recent_experience now [] = false := rfl

/-- Content quality of the empty profile is 0, for any `now`. -/
theorem content_quality_empty (now : PyDateTime) :
    _assess_content_quality now "" [] [] = .ok 0 := by
  unfold _assess_content_quality
  rw [recent_empty]
  with_unfolding_all decide

/-- Reduction of `Except` bind on a success value. -/
theorem exceptBindOk {α β : Type} (a : α) (f : α → Except String β) :
    (Except.ok a >>= f) = f a := rfl

/-- Quality assessment of the all-empty profile: completeness, content
and ATS score 0, structure scores 0.25 through the vacuous logical-flow
check, professionalism scores 1.0, so the overall score is 0.2 and the
grade "D". -/
theorem quality_empty (now : PyDateTime) :
    assess_resume_quality now "" [] baseSkillDict [] [] =
      .ok ⟨1/5, 0, 1/4, 0, 0, 1,
        ["Add missing required sections (contact, summary, experience, education, skills)",
         "Improve resume structure with clear section headers and consistent formatting",
         "Add more action verbs and quantifiable achievements to make your experience stand out",
         "Include more industry-specific keywords to improve ATS compatibility",
         "Add a comprehensive skills section with technical and soft skills",
         "Include relevant work experience with specific achievements",
         "Add your educational background and relevant certifications"],
        [],
        ["Missing important resume sections",
         "No skills section or insufficient skills listed",
         "No work experience listed",
         "No educational background provided"],
        "D"⟩ := by
  unfold assess_resume_quality
  rw [content_quality_empty]
  with_unfolding_all decide

set_option maxRecDepth 4000 in
/-- C1 (amended): the empty input yields — without raising — an empty
section map, the eight skill categories all empty, empty experience and
education lists, and a quality assessment with overall score 0.2 and
grade "D", for any oracle behaviour whose spaCy method reports no
mentions (spaCy finds no tokens in an empty document; the BERT chunk
list is structurally empty). -/
theorem C1_empty_input_pipeline (vocab : SkillCat → List String)
    (spacyM : Option (List (SkillCat × SkillInfo)))
    (bertNer : Option (String → List BertEnt))
    (parseExpSec : String → Option PyExperience)
    (parseEduSec : String → Option PyEducation) (now : PyDateTime)
    (hs : ∀ ms, spacyM = some ms → ms = []) :
    (parse_resume_text vocab spacyM bertNer parseExpSec parseEduSec
        now "").toOption.map
        (fun r => (r.sections, r.skills.map Prod.fst,
          r.skills.map Prod.snd, r.experience, r.education,
          r.quality.overall_score, r.quality.grade)) =
      some ([],
        ["programming_languages", "frameworks", "databases",
         "cloud_platforms", "tools", "soft_skills", "languages",
         "certifications"],
        [[], [], [], [], [], [], [], []], [], [], 1/5, "D") := by
  unfold parse_resume_text
  simp only [clean_text_empty, identify_sections_empty,
    extract_skills_empty vocab spacyM bertNer hs,
    extract_experience_empty, extract_education_empty, exceptBindOk,
    quality_empty]
  with_unfolding_all rfl

/-- Witness for C1's amended theorem at concrete oracles. -/
theorem C1_empty_input_pipeline_witness :
    (∀ ms, (none : Option (List (SkillCat × SkillInfo))) = some ms →
      ms = []) ∧
    (parse_resume_text vocabNone none none parseExpNone parseEduNone
        nowDemo "").toOption.map
        (fun r => (r.sections, r.skills.map Prod.fst,
          r.skills.map Prod.snd, r.experience, r.education,
          r.quality.overall_score, r.quality.grade)) =
      some ([],
        ["programming_languages", "frameworks", "databases",
         "cloud_platforms", "tools", "soft_skills", "languages",
         "certifications"],
        [[], [], [], [], [], [], [], []], [], [], 1/5, "D") :=
  ⟨fun ms h => by simp at h,
   C1_empty_input_pipeline vocabNone none none parseExpNone parseEduNone
     nowDemo (fun ms h => by simp at h)⟩

/-- Invariant of the two-state scan: every emitted block is non-empty
and starts with a line the header test accepts (because a block is only
ever opened as `[header line]` and grown at the tail). -/
theorem scanSecs_block_head (isH isB : String → Bool) :
    ∀ (lines cur : List String) (inS : Bool),
      (cur = [] ∨ ∃ l0 ls, cur = l0 :: ls ∧ isH l0 = true) →
      (inS = true → cur ≠ []) →
      ∀ b ∈ scanSecs isH isB lines cur inS,
        ∃ l0 ls, b = l0 :: ls ∧ isH l0 = true := by
  intro lines
  induction lines with
  | nil =>
    intro cur inS hcur _ b hb
    by_cases hc : cur = []
    · simp [scanSecs, hc] at hb
    · simp [scanSecs, hc] at hb
      subst hb
      rcases hcur with h | h
      · exact absurd h hc
      · exact h
  | cons ln rest ih =>
    intro cur inS hcur hin b hb
    unfold scanSecs at hb
    by_cases h1 : isH (stripStr ln) = true
    · rw [if_pos h1] at hb
      rcases List.mem_append.mp hb with h | h
      · by_cases hc : cur = []
        · simp [hc] at h
        · simp [hc] at h
          subst h
          rcases hcur with hx | hx
          · exact absurd hx hc
          · exact hx
      · exact ih [stripStr ln] true
          (Or.inr ⟨stripStr ln, [], rfl, h1⟩) (fun _ => by simp) b h
    · rw [if_neg h1] at hb
      by_cases h2 : inS = true
      · rw [if_pos h2] at hb
        by_cases h3 : isB (stripStr ln) = true
        · rw [if_pos h3] at hb
          rcases List.mem_append.mp hb with h | h
          · by_cases hc : cur = []
            · simp [hc] at h
            · simp [hc] at h
              subst h
              rcases hcur with hx | hx
              · exact absurd hx hc
              · exact hx
          · exact ih [] false (Or.inl rfl) (by simp) b h
        · rw [if_neg h3] at hb
          refine ih (cur ++ [stripStr ln]) inS ?_ ?_ b hb
          · rcases hcur with hx | ⟨l0, ls, rfl, hh⟩
            · exact absurd hx (hin h2)
            · exact Or.inr ⟨l0, ls ++ [stripStr ln], by simp, hh⟩
          · intro _
            simp
      · rw [if_neg h2] at hb
        exact ih cur inS hcur hin b hb

/-- C5 (amended): every block either narrow re-scanner produces begins
with the matched header line itself (the header line *is* included in
the block's content, unlike the whole-resume segmenter's treatment). -/
theorem C5_narrow_scans_keep_header (text : String) :
    (∀ s ∈ _identify_experience_sections text,
      ∃ l0 ls, s = String.intercalate "\n" (l0 :: ls) ∧
        isExperienceHeaderLine l0 = true) ∧
    (∀ s ∈ _identify_education_sections text,
      ∃ l0 ls, s = String.intercalate "\n" (l0 :: ls) ∧
        isEduHeaderLine l0 = true) := by
  refine ⟨fun s hs => ?_, fun s hs => ?_⟩
  · unfold _identify_experience_sections at hs
    rcases List.mem_map.mp hs with ⟨b, hb, rfl⟩
    obtain ⟨l0, ls, rfl, hh⟩ :=
      scanSecs_block_head isExperienceHeaderLine isExpBoundaryLine
        (text.splitOn "\n") [] false (Or.inl rfl) (by simp) b hb
    exact ⟨l0, ls, rfl, hh⟩
  · unfold _identify_education_sections at hs
    rcases List.mem_map.mp hs with ⟨b, hb, rfl⟩
    obtain ⟨l0, ls, rfl, hh⟩ :=
      scanSecs_block_head isEduHeaderLine isEduBoundaryLine
        (text.splitOn "\n") [] false (Or.inl rfl) (by simp) b hb
    exact ⟨l0, ls, rfl, hh⟩

/-- Witness for C5's amended theorem on a concrete resume snippet. -/
theorem C5_narrow_scans_keep_header_witness :
    ∃ l0 ls, "Experience\nGoogle Inc" =
      String.intercalate "\n" (l0 :: ls) ∧
      isExperienceHeaderLine l0 = true :=
  (C5_narrow_scans_keep_header "Experience\nGoogle Inc").1
    "Experience\nGoogle Inc" (by with_unfolding_all decide)

/-- C6 (counterexample): cleaning is not idempotent — removing a
disallowed character leaves a double space which only a second pass
collapses. -/
theorem C6_counterexample_not_idempotent :
    _clean_text (_clean_text "a \" b") ≠ _clean_text "a \" b" := by
  with_unfolding_all decide

/-- Every whitespace character collapsing leaves behind is a plain
space. -/
theorem collapse_ws_is_space :
    ∀ l, ∀ c ∈ collapseWs l, isWsCh c = true → c = spaceChar := by
  intro l
  induction l using collapseWs.induct with
  | case1 => intro c hc; simp [collapseWs] at hc
  | case2 c h =>
    intro x hx _
    rw [collapseWs, if_pos h] at hx
    simpa using hx
  | case3 c h =>
    intro x hx hw
    rw [collapseWs, if_neg h] at hx
    simp at hx
    subst hx
    exact absurd hw h
  | case4 c d rest h1 h2 ih =>
    intro x hx hw
    rw [collapseWs, if_pos h1, if_pos h2] at hx
    exact ih x hx hw
  | case5 c d rest h1 h2 ih =>
    intro x hx hw
    rw [collapseWs, if_pos h1, if_neg h2] at hx
    rcases List.mem_cons.mp hx with rfl | hx2
    · rfl
    · exact ih x hx2 hw
  | case6 c d rest h1 ih =>
    intro x hx hw
    rw [collapseWs, if_neg h1] at hx
    rcases List.mem_cons.mp hx with rfl | hx2
    · exact absurd hw h1
    · exact ih x hx2 hw

/-- Every character collapsing emits is a space or was in the input. -/
theorem collapse_mem :
    ∀ l, ∀ c ∈ collapseWs l, c = spaceChar ∨ c ∈ l := by
  intro l
  induction l using collapseWs.induct with
  | case1 => intro c hc; simp [collapseWs] at hc
  | case2 c h =>
    intro x hx
    rw [collapseWs, if_pos h] at hx
    simp at hx
    exact Or.inl hx
  | case3 c h =>
    intro x hx
    rw [collapseWs, if_neg h] at hx
    simp at hx
    subst hx
    simp
  | case4 c d rest h1 h2 ih =>
    intro x hx
    rw [collapseWs, if_pos h1, if_pos h2] at hx
    rcases ih x hx with h | h
    · exact Or.inl h
    · exact Or.inr (List.mem_cons_of_mem _ h)
  | case5 c d rest h1 h2 ih =>
    intro x hx
    rw [collapseWs, if_pos h1, if_neg h2] at hx
    rcases List.mem_cons.mp hx with rfl | hx2
    · exact Or.inl rfl
    · rcases ih x hx2 with h | h
      · exact Or.inl h
      · exact Or.inr (List.mem_cons_of_mem _ h)
  | case6 c d rest h1 ih =>
    intro x hx
    rw [collapseWs, if_neg h1] at hx
    rcases List.mem_cons.mp hx with rfl | hx2
    · exact Or.inr (List.mem_cons_self _ _)
    · rcases ih x hx2 with h | h
      · exact Or.inl h
      · exact Or.inr (List.mem_cons_of_mem _ h)

/-- A collapsed list starting with a non-whitespace character keeps it
in front. -/
theorem collapse_cons_of_neg (d : Char) (rest : List Char)
    (h : ¬ isWsCh d = true) :
    ∃ t, collapseWs (d :: rest) = d :: t := by
  cases rest with
  | nil => exact ⟨[], by rw [collapseWs, if_neg h]⟩
  | cons e r => exact ⟨collapseWs (e :: r), by rw [collapseWs, if_neg h]⟩

/-- Collapsed text has no two adjacent whitespace characters. -/
theorem collapse_chain : ∀ l, List.Chain' WsOk (collapseWs l) := by
  intro l
  induction l using collapseWs.induct with
  | case1 => simp [collapseWs]
  | case2 c h => rw [collapseWs, if_pos h]; simp
  | case3 c h => rw [collapseWs, if_neg h]; simp
  | case4 c d rest h1 h2 ih => rw [collapseWs, if_pos h1, if_pos h2]; exact ih
  | case5 c d rest h1 h2 ih =>
    rw [collapseWs, if_pos h1, if_neg h2]
    rw [List.chain'_cons']
    refine ⟨?_, ih⟩
    intro y hy
    obtain ⟨t, ht⟩ := collapse_cons_of_neg d rest h2
    rw [ht] at hy
    simp at hy
    subst hy
    exact fun hp => h2 hp.2
  | case6 c d rest h1 ih =>
    rw [collapseWs, if_neg h1]
    rw [List.chain'_cons']
    exact ⟨fun y _ => fun hp => h1 hp.1, ih⟩

/-- On a collapsed-form list, collapsing is the identity. -/
theorem collapse_eq_self :
    ∀ l, (∀ c ∈ l, isWsCh c = true → c = spaceChar) →
      List.Chain' WsOk l → collapseWs l = l := by
  intro l
  induction l using collapseWs.induct with
  | case1 => intro _ _; rfl
  | case2 c h =>
    intro hsp _
    rw [collapseWs, if_pos h, hsp c (by simp) h]
  | case3 c h =>
    intro _ _
    rw [collapseWs, if_neg h]
  | case4 c d rest h1 h2 ih =>
    intro hsp hch
    exact absurd (List.chain'_cons.mp hch).1 (fun hx => hx ⟨h1, h2⟩)
  | case5 c d rest h1 h2 ih =>
    intro hsp hch
    rw [collapseWs, if_pos h1, if_neg h2,
      ih (fun x hx hw => hsp x (List.mem_cons_of_mem _ hx) hw) hch.tail,
      hsp c (by simp) h1]
  | case6 c d rest h1 ih =>
    intro hsp hch
    rw [collapseWs, if_neg h1,
      ih (fun x hx hw => hsp x (List.mem_cons_of_mem _ hx) hw) hch.tail]

/-- Blank-line normalisation is the identity on newline-free text. -/
theorem normBlank_no_nl : ∀ l : List Char, nlChar ∉ l →
    normBlankLines l = l := by
  intro l
  induction l with
  | nil => intro _; rw [normBlankLines]
  | cons c rest ih =>
    intro h
    have hc : ¬ c = nlChar := fun hx => h (hx ▸ List.mem_cons_self _ _)
    rw [normBlankLines, if_neg hc, ih (fun hx => h (List.mem_cons_of_mem _ hx))]

/-- Stripping only removes characters. -/
theorem strip_subset : ∀ (l : List Char), ∀ c ∈ stripList l, c ∈ l := by
  intro l c hc
  unfold stripList at hc
  rw [List.mem_reverse] at hc
  have h1 := (List.dropWhile_suffix (l := (l.dropWhile isWsCh).reverse)
    isWsCh).sublist.subset hc
  rw [List.mem_reverse] at h1
  exact (List.dropWhile_suffix (l := l) isWsCh).sublist.subset h1

/-- `dropWhile` preserves the no-adjacent-whitespace chain. -/
theorem chain'_dropWhile (p : Char → Bool) :
    ∀ l : List Char, List.Chain' WsOk l →
      List.Chain' WsOk (l.dropWhile p) := by
  intro l
  induction l with
  | nil => intro _; simp
  | cons c rest ih =>
    intro h
    by_cases hp : p c
    · rw [List.dropWhile_cons_of_pos hp]
      exact ih h.tail
    · rw [List.dropWhile_cons_of_neg hp]
      exact h

/-- The chain relation is symmetric. -/
theorem wsok_symm {a b : Char} (h : WsOk a b) : WsOk b a :=
  fun hp => h ⟨hp.2, hp.1⟩

/-- `reverse` preserves the no-adjacent-whitespace chain. -/
theorem chain'_reverse_wsok (l : List Char) (h : List.Chain' WsOk l) :
    List.Chain' WsOk l.reverse := by
  rw [List.chain'_reverse]
  exact h.imp (fun _ _ hx => wsok_symm hx)

/-- Stripping preserves the no-adjacent-whitespace chain. -/
theorem chain'_strip (l : List Char) (h : List.Chain' WsOk l) :
    List.Chain' WsOk (stripList l) := by
  unfold stripList
  exact chain'_reverse_wsok _
    (chain'_dropWhile _ _ (chain'_reverse_wsok _ (chain'_dropWhile _ _ h)))

/-- The head a `dropWhile` exposes fails the predicate. -/
theorem dropWhile_head_false (p : Char → Bool) :
    ∀ l : List Char, ∀ x ∈ (l.dropWhile p).head?, p x = false := by
  intro l
  induction l with
  | nil => intro x hx; simp at hx
  | cons c rest ih =>
    intro x hx
    by_cases hp : p c
    · rw [List.dropWhile_cons_of_pos hp] at hx
      exact ih x hx
    · rw [List.dropWhile_cons_of_neg hp] at hx
      simp at hx
      subst hx
      exact Bool.not_eq_true _ ▸ (by simp [hp])

/-- If the head (when present) fails the predicate, `dropWhile` is the
identity. -/
theorem dropWhile_eq_self_of_head (p : Char → Bool) (l : List Char)
    (h : ∀ x ∈ l.head?, p x = false) : l.dropWhile p = l := by
  cases l with
  | nil => rfl
  | cons c rest =>
    exact List.dropWhile_cons_of_neg (by simp [h c (by simp)])

/-- Stripping is idempotent. -/
theorem strip_idem (l : List Char) :
    stripList (stripList l) = stripList l := by
  by_cases hB : (l.dropWhile isWsCh).reverse.dropWhile isWsCh = []
  · unfold stripList
    rw [hB]
    rfl
  · have hlast : ∀ x ∈ ((l.dropWhile isWsCh).reverse.dropWhile
        isWsCh).getLast?, isWsCh x = false := by
      intro x hx
      obtain ⟨t, ht⟩ := List.dropWhile_suffix
        (l := (l.dropWhile isWsCh).reverse) isWsCh
      have hg : ((l.dropWhile isWsCh).reverse.dropWhile
          isWsCh).getLast? = (l.dropWhile isWsCh).reverse.getLast? := by
        conv_rhs => rw [← ht]
        rw [List.getLast?_append]
        cases hgl : ((l.dropWhile isWsCh).reverse.dropWhile
            isWsCh).getLast? with
        | none => exact absurd (List.getLast?_eq_none_iff.mp hgl) hB
        | some y => rfl
      rw [hg, List.getLast?_reverse] at hx
      exact dropWhile_head_false isWsCh l x hx
    unfold stripList
    rw [dropWhile_eq_self_of_head isWsCh
      ((l.dropWhile isWsCh).reverse.dropWhile isWsCh).reverse
      (by
        intro x hx
        rw [List.head?_reverse] at hx
        exact hlast x hx)]
    rw [List.reverse_reverse,
      dropWhile_eq_self_of_head isWsCh _
        (dropWhile_head_false isWsCh (l.dropWhile isWsCh).reverse)]

/-- C6 (amended): on texts all of whose characters pass the allow-list
(word characters, whitespace, allowed punctuation), cleaning is
idempotent — the counterexample's double space can only arise from a
removed character. -/
theorem C6_clean_idempotent_on_allowed (t : String)
    (h : ∀ c ∈ t.data, isAllowedCh c = true) :
    _clean_text (_clean_text t) = _clean_text t := by
  by_cases h0 : t = ""
  · subst h0; rfl
  have hfil : (collapseWs t.data).filter isAllowedCh =
      collapseWs t.data := by
    apply List.filter_eq_self.mpr
    intro c hc
    rcases collapse_mem _ c hc with rfl | hc2
    · decide
    · exact h c hc2
  have hnl : nlChar ∉ collapseWs t.data := by
    intro hmem
    have hsp := collapse_ws_is_space _ nlChar hmem (by decide)
    exact absurd hsp (by decide)
  have key : _clean_text t = String.mk (stripList (collapseWs t.data)) := by
    unfold _clean_text
    rw [if_neg h0, hfil, normBlank_no_nl _ hnl]
  rw [key]
  set Y := stripList (collapseWs t.data) with hY
  by_cases hYe : Y = []
  · rw [hYe]; rfl
  · have hne : (String.mk Y) ≠ "" := by
      intro hx
      apply hYe
      have hd : (String.mk Y).data = ("" : String).data := by rw [hx]
      simpa using hd
    have hYsp : ∀ c ∈ Y, isWsCh c = true → c = spaceChar := by
      intro c hc hw
      exact collapse_ws_is_space _ c (strip_subset _ c hc) hw
    have hYch : List.Chain' WsOk Y := chain'_strip _ (collapse_chain _)
    have hcol : collapseWs Y = Y := collapse_eq_self _ hYsp hYch
    have hfil2 : Y.filter isAllowedCh = Y := by
      apply List.filter_eq_self.mpr
      intro c hc
      have hc2 := strip_subset _ c hc
      rcases collapse_mem _ c hc2 with rfl | hc3
      · decide
      · exact h c hc3
    have hnl2 : nlChar ∉ Y := fun hm => hnl (strip_subset _ _ hm)
    unfold _clean_text
    rw [if_neg hne]
    show String.mk (stripList (normBlankLines
      ((collapseWs Y).filter isAllowedCh))) = String.mk Y
    rw [hcol, hfil2, normBlank_no_nl _ hnl2, hY, strip_idem]

/-- Witness for C6's amended theorem on an all-allowed text. -/
theorem C6_clean_idempotent_on_allowed_witness :
    (∀ c ∈ ("John Smith, Developer" : String).data,
      isAllowedCh c = true) ∧
    _clean_text (_clean_text "John Smith, Developer") =
      _clean_text "John Smith, Developer" :=
  ⟨by decide, C6_clean_idempotent_on_allowed "John Smith, Developer"
    (by decide)⟩
